import Mathlib

/-!
Verification of the write-ingestion transport layer of a time-series store
(`package transport`): the wire-frame decoder `decodePoints`, the dispatch
entry points `WritePoints` / `WriteStreamPoints`, and the pooled work-object
lifecycle (`reset`, `GetWritePointsWork`, `PutWritePointsWork`).

Bytes are modelled as `Nat` (values kept below 256 where realism matters),
buffers as lists of bytes.  Go slices are modelled with their nil-ness and
capacity (`GoSlice`), since the shrink policy in `reset` reads `len` and `cap`
and the pool invariants talk about nil versus empty slices.  A Go slice
operation that touches indices at or past the slice length (an index panic, or
a read past the logical end of the request buffer) is modelled as a
distinguished out-of-bounds outcome.

External collaborators that are not part of this package are modelled at their
interface: the row-batch decoder `influx.FastUnmarshalMultiRows` is a
parameter (an arbitrary function from the payload to rows plus an optional
error), the storage / replica / stream write calls are parameters giving their
returned errors, and the process-wide statistics counter is modelled by the
number of atomic-add operations a call performs.
-/

namespace TsStoreTransport

/-- A Go slice: nil-ness flag, element data, and spare capacity beyond the
length (`cap = data.length + extra`). -/
structure GoSlice (α : Type) where
  isNil : Bool
  data : List α
  extra : Nat
deriving DecidableEq

/-- Capacity of a Go slice. -/
def GoSlice.cap (s : GoSlice α) : Nat := s.data.length + s.extra

/-- The nil slice (`var s []T`): length 0, capacity 0. -/
def GoSlice.nilS : GoSlice α := ⟨true, [], 0⟩

/-- Truncation `s[:0]`: length reset to zero, capacity retained, nil-ness preserved
(`nil[:0]` is still nil). -/
def GoSlice.trunc (s : GoSlice α) : GoSlice α := ⟨s.isNil, [], s.data.length + s.extra⟩

/-- A non-nil slice holding exactly `l`, with no spare capacity. -/
def GoSlice.ofList (l : List α) : GoSlice α := ⟨false, l, 0⟩

/-- Model of `netstorage.StreamVar`: per-row stream routing data supplied by the caller. -/
structure StreamVar where
  only : Bool
  id : Nat
deriving DecidableEq

/-- Model of `influx.Row`, restricted to the fields this layer touches (`StreamOnly`,
`StreamId`); the rest of the row produced by the black-box row decoder is
abstracted as `payload`. -/
structure Row where
  streamOnly : Bool
  streamId : Nat
  payload : Nat
deriving DecidableEq

/-- Model of `influx.IndexOption`: an entry of `indexOptionpools`; carries its own
nested `IndexList` slice, truncated separately by `decodePoints`. -/
structure IndexOption where
  indexList : GoSlice Nat
deriving DecidableEq

/-- Model of `WritePointsWork`: the pooled per-request work object.  The borrowed
`storage` and `stream` engine references are modelled by presence flags (the
engines themselves are external collaborators); the `logger` field is not
modelled (logging has no observable effect on the results). -/
structure WritePointsWork where
  storage : Bool
  stream : Bool
  reqBuf : GoSlice Nat
  streamVars : GoSlice StreamVar
  rows : GoSlice Row
  tagpools : GoSlice Nat
  fieldpools : GoSlice Nat
  indexKeypools : GoSlice Nat
  indexOptionpools : GoSlice IndexOption
  lastResetTime : Nat
deriving DecidableEq

/-- The zero value of `WritePointsWork`, as built on a pool miss in
`GetWritePointsWork` (`&WritePointsWork{logger: ...}`): every slice field is
nil, both engine references absent. -/
def freshWritePointsWork : WritePointsWork :=
  ⟨false, false, .nilS, .nilS, .nilS, .nilS, .nilS, .nilS, .nilS, 0⟩

/-- Modelled from the spec: the designated "fast-marshal points" protocol tag
(`netstorage.PackageTypeFast`, defined outside the sources at hand).  The
concrete value is immaterial to every claim; only equality with the buffer's
first byte is tested. -/
def PackageTypeFast : Nat := 2

/-- Modelled from the spec: the "unmarshal points" error kind
(`errno.ErrUnmarshalPoints`, defined outside the sources at hand).  The
concrete code is immaterial; only the kind of the wrapping is tested. -/
def ErrUnmarshalPoints : Nat := 1

/-- Go `uint64` subtraction `a - b` (wraps modulo `2^64`), used for
`fasttime.UnixTimestamp() - ww.lastResetTime`. -/
def usub64 (a b : Nat) : Nat :=
  (a + (18446744073709551616 - b % 18446744073709551616)) % 18446744073709551616

/-- Go errors as this layer produces them: `errors.New` strings and
`errno.NewError(code, inner)` wrappings (`errnoNewNil` is the wrapping of a
nil inner error, as in the odd-pair-list branch of `WriteStreamPoints`). -/
inductive GoErr where
  | str : String → GoErr
  | errnoNewNil : Nat → GoErr
  | errnoNew : Nat → GoErr → GoErr
deriving DecidableEq

/-- Wrapping `errno.NewError(code, err)` for a possibly-nil `err`. -/
def errnoWrap (code : Nat) : Option GoErr → GoErr
  | none => .errnoNewNil code
  | some e => .errnoNew code e

/-! ## Fixed-width and varint encodings

`encoding.UnmarshalUint32` / `UnmarshalUint64` / `UnmarshalVarUint64s` come
from an external encoding library; they are modelled from the spec (§4.1/§6):
big-endian fixed-width integers, and base-128 varints (low groups first,
continuation bit `0x80`, at most 10 bytes per value).  The corresponding
marshal functions realise the same layout for the round-trip property. -/

/-- Modelled from the spec: big-endian 4-byte encoding of an unsigned 32-bit
integer. -/
def marshalUint32 (v : Nat) : List Nat :=
  [v / 16777216 % 256, v / 65536 % 256, v / 256 % 256, v % 256]

/-- Modelled from the spec: big-endian 8-byte encoding of an unsigned 64-bit
integer. -/
def marshalUint64 (v : Nat) : List Nat :=
  [v / 72057594037927936 % 256, v / 281474976710656 % 256,
   v / 1099511627776 % 256, v / 4294967296 % 256,
   v / 16777216 % 256, v / 65536 % 256, v / 256 % 256, v % 256]

/-- Modelled from the spec: read a big-endian unsigned 32-bit integer from the
first 4 bytes (the caller has already checked at least 16 bytes remain). -/
def unmarshalUint32 : List Nat → Nat
  | b0 :: b1 :: b2 :: b3 :: _ => ((b0 * 256 + b1) * 256 + b2) * 256 + b3
  | _ => 0

/-- Modelled from the spec: read a big-endian unsigned 64-bit integer from the
first 8 bytes. -/
def unmarshalUint64 : List Nat → Nat
  | b0 :: b1 :: b2 :: b3 :: b4 :: b5 :: b6 :: b7 :: _ =>
    ((((((b0 * 256 + b1) * 256 + b2) * 256 + b3) * 256 + b4) * 256 + b5) * 256 + b6) * 256 + b7
  | _ => 0

/-- Canonical base-128 varint encoding, structurally recursive on the number
of continuation bytes still allowed (`fuel`); a 64-bit value fits within
`fuel = 9` (at most 10 bytes). -/
def marshalVarAux : Nat → Nat → List Nat
  | 0, v => [v]
  | fuel + 1, v => if v < 128 then [v] else (v % 128 + 128) :: marshalVarAux fuel (v / 128)

/-- Modelled from the spec: canonical base-128 varint encoding of an unsigned
64-bit integer, low 7-bit group first, continuation bit `128` on every byte
but the last. -/
def marshalVarUint64 (v : Nat) : List Nat := marshalVarAux 9 v

/-- Concatenated varint encodings of a list of values. -/
def marshalVarUint64s : List Nat → List Nat
  | [] => []
  | v :: rest => marshalVarUint64 v ++ marshalVarUint64s rest

/-- Modelled from the spec: decode one varint; `fuel` bounds the number of
continuation bytes still allowed (a value occupies at most 10 bytes). -/
def uvarintStep : Nat → List Nat → Except String (Nat × List Nat)
  | _, [] => .error ("unexpected end of encoded varint")
  | 0, b :: rest =>
    if b < 128 then .ok (b, rest) else .error ("too long encoded varint")
  | fuel + 1, b :: rest =>
    if b < 128 then .ok (b, rest)
    else
      match uvarintStep fuel rest with
      | .error e => .error e
      | .ok (v, rest') => .ok (v * 128 + (b - 128), rest')

/-- Decode one varint (at most 10 bytes). -/
def unmarshalVarUint64 (src : List Nat) : Except String (Nat × List Nat) :=
  uvarintStep 9 src

/-- Modelled from the spec: `encoding.UnmarshalVarUint64s` — decode a given
count of varints, returning the values decoded so far and either the remaining
tail or the error that stopped the decode. -/
def unmarshalVarUint64s : Nat → List Nat → List Nat × Except String (List Nat)
  | 0, src => ([], .ok src)
  | n + 1, src =>
    match unmarshalVarUint64 src with
    | .error e => ([], .error e)
    | .ok (v, rest) =>
      match unmarshalVarUint64s n rest with
      | (vs, .error e) => (v :: vs, .error e)
      | (vs, .ok tl) => (v :: vs, .ok tl)

/-! ## The wire-frame parse (`decodePoints`, lines 155–215)

The header parse of `decodePoints` is translated step by step.  `ParseStep`
distinguishes a successful step, a returned error, and an out-of-bounds slice
access (`oob`): Go indexing past the slice length panics, and Go slicing past
the length reads beyond the logical request buffer. -/

inductive ParseStep (α : Type) where
  | oob : ParseStep α
  | fail : String → ParseStep α
  | next : α → ParseStep α
deriving DecidableEq

/-- Lines 160–171: `if len(tail) < 2 { return "invalid points buffer" }`;
`ty := tail[0]; if ty != PackageTypeFast { return "not a fast marshal points
package" }; tail = tail[1:]`. -/
def parseTag (buf : List Nat) : ParseStep (List Nat) :=
  if buf.length < 2 then .fail ("invalid points buffer")
  else
    match buf with
    | [] => .oob
    | ty :: tail1 =>
      if ty ≠ PackageTypeFast then .fail ("not a fast marshal points package")
      else .next tail1

/-- Lines 173–181 (db name) and 183–192 (rp name):
`l := int(tail[0])` — an index panic if `tail` is empty —, then
`if len(tail) < l { return msg }` (note: checked **before** the length byte is
consumed), then `tail = tail[1:]; name = tail[:l]; tail = tail[l:]` — the last
two are reads past the buffer end whenever `l` exceeds the remaining length. -/
def readName (tailL : List Nat) (msg : String) : ParseStep (List Nat × List Nat) :=
  match tailL with
  | [] => .oob
  | l :: rest =>
    if (l :: rest).length < l then .fail msg
    else if l ≤ rest.length then .next (rest.take l, rest.drop l)
    else .oob

/-- Lines 194–206: `if len(tail) < 16 { return "no data for points data" }`,
then read the 4-byte partition id, the 8-byte shard id and the 4-byte
stream-shard entry count. -/
def readFixed (tailL : List Nat) : ParseStep (Nat × Nat × Nat × List Nat) :=
  if tailL.length < 16 then .fail ("no data for points data")
  else
    let ptId := unmarshalUint32 tailL
    let t1 := tailL.drop 4
    let shard := unmarshalUint64 t1
    let t2 := t1.drop 8
    let sdLen := unmarshalUint32 t2
    .next (ptId, shard, sdLen, t2.drop 4)

/-- The header fields extracted by `decodePoints` from a frame, together with
the remaining row payload (`binaryRows`). -/
structure FrameHeader where
  db : List Nat
  rp : List Nat
  ptId : Nat
  shard : Nat
  streamShardIdList : List Nat
  binaryRows : List Nat
deriving DecidableEq

/-- Lines 155–215 of `decodePoints`: the strictly sequential frame parse
(protocol tag, db name, rp name, 16-byte fixed block, varint stream-shard id
list, remaining bytes as the row payload). -/
def parseFrame (buf : List Nat) : ParseStep FrameHeader :=
  match parseTag buf with
  | .oob => .oob
  | .fail m => .fail m
  | .next tail1 =>
    match readName tail1 ("no data for db name") with
    | .oob => .oob
    | .fail m => .fail m
    | .next (db, tail3) =>
      match readName tail3 ("no data for rp name") with
      | .oob => .oob
      | .fail m => .fail m
      | .next (rp, tail5) =>
        match readFixed tail5 with
        | .oob => .oob
        | .fail m => .fail m
        | .next (ptId, shard, sdLen, tail8) =>
          match unmarshalVarUint64s sdLen tail8 with
          | (_, .error e) => .fail e
          | (sdList, .ok tail9) => .next ⟨db, rp, ptId, shard, sdList, tail9⟩

/-- Modelled from the spec: the §4.1/§6 frame layout as an encoder, used to
state the round-trip property.  `encodeFrame db rp ptId shard sdList payload`
is the frame whose header fields are exactly the arguments. -/
def encodeFrame (db rp : List Nat) (ptId shard : Nat) (sdList payload : List Nat) : List Nat :=
  PackageTypeFast :: db.length ::
    (db ++ rp.length ::
      (rp ++ (marshalUint32 ptId ++ (marshalUint64 shard ++
        (marshalUint32 sdList.length ++ (marshalVarUint64s sdList ++ payload))))))

/-! ## `decodePoints` (lines 155–250) -/

/-- Outcome of a `decodePoints` call.  The final `Nat` of the returning
constructors counts the atomic adds performed on the process-wide
`statistics.PerfStat.WriteUnmarshalNs` counter during the call (the elapsed
nanoseconds themselves are wall-clock time and not modelled).  On an error
return the partially-assigned named results (`db`, `rp`, …) are consumed only
by the caller's log statement and are therefore not carried. -/
inductive DecodeOut where
  | oob : DecodeOut
  | err : String → WritePointsWork → Nat → DecodeOut
  | ok : FrameHeader → WritePointsWork → Nat → DecodeOut
deriving DecidableEq

/-- The error text of lines 236–239. -/
def rowsStreamVarsMismatchMsg : String :=
  "unmarshal rows failed, the num of the rows is not equal to the stream vars"

/-- Lines 242–245: copy each row's `StreamOnly` / `StreamId` from the
corresponding stream var (lengths are equal when this runs). -/
def annotateRows (rows : List Row) (vars : List StreamVar) : List Row :=
  rows.zipWith (fun r v => { r with streamOnly := v.only, streamId := v.id }) vars

/-- Lines 221–223: truncate the inner `IndexList` of every
`indexOptionpools` entry. -/
def truncIndexLists (s : GoSlice IndexOption) : GoSlice IndexOption :=
  ⟨s.isNil, s.data.map (fun io => { io with indexList := io.indexList.trunc }), s.extra⟩

/-- Model of `WritePointsWork.decodePoints`: parse the frame header from `reqBuf`,
truncate the scratch pools, run the black-box row decoder `unmarshal`
(`influx.FastUnmarshalMultiRows`, a parameter: it returns the new rows slice
and an optional error; the opaque pool contents it refills are not modelled),
then, when the stream-shard id list is non-empty, require the decoded row
count to equal `len(streamVars)` and annotate the rows.  The atomic add to
`WriteUnmarshalNs` happens once, after every error return. -/
def WritePointsWork.decodePoints (ww : WritePointsWork)
    (unmarshal : List Nat → GoSlice Row × Option String) : DecodeOut :=
  match parseFrame ww.reqBuf.data with
  | .oob => .oob
  | .fail m => .err m ww 0
  | .next fh =>
    let ww1 : WritePointsWork := { ww with
      rows := ww.rows.trunc
      tagpools := ww.tagpools.trunc
      fieldpools := ww.fieldpools.trunc
      indexKeypools := ww.indexKeypools.trunc
      indexOptionpools := (truncIndexLists ww.indexOptionpools).trunc }
    match unmarshal fh.binaryRows with
    | (rowsOut, some e) => .err e { ww1 with rows := rowsOut } 0
    | (rowsOut, none) =>
      let ww2 : WritePointsWork := { ww1 with rows := rowsOut }
      if fh.streamShardIdList.length > 0 then
        if ww2.rows.data.length ≠ ww2.streamVars.data.length then
          .err rowsStreamVarsMismatchMsg ww2 0
        else
          .ok fh { ww2 with
            rows := ⟨ww2.rows.isNil,
                     annotateRows ww2.rows.data ww2.streamVars.data,
                     ww2.rows.extra⟩ } 1
      else .ok fh ww2 1

/-! ## Dispatch entry points (lines 252–302) -/

/-- A call that may end in a Go runtime panic propagated from `decodePoints`
(`oob`) or return a value. -/
inductive Ret (α : Type) where
  | oob : Ret α
  | ret : α → Ret α
deriving DecidableEq

/-- Result of `WritePoints`: the returned error, whether
`storage.WriteRows` was invoked, whether `storage.WriteRowsToSlave` was
invoked, and the work object as the call leaves it. -/
structure WPRet where
  err : Option GoErr
  writeRowsCalled : Bool
  slaveCalled : Bool
  final : WritePointsWork
deriving DecidableEq

/-- Model of `WritePointsWork.WritePoints`.  The storage engine is external: `writeRes`
is the error `storage.WriteRows` would return, `slaveRes` the error
`storage.WriteRowsToSlave` would return, and `isReplication` the value of
`config.IsReplication()`. -/
def WritePointsWork.WritePoints (ww : WritePointsWork)
    (unmarshal : List Nat → GoSlice Row × Option String)
    (writeRes slaveRes : Option GoErr) (isReplication : Bool) : Ret WPRet :=
  match ww.decodePoints unmarshal with
  | .oob => .oob
  | .err m ww2 _ =>
    .ret ⟨some (.errnoNew ErrUnmarshalPoints (.str m)), false, false, ww2⟩
  | .ok _ ww2 _ =>
    if writeRes.isNone && isReplication then .ret ⟨slaveRes, true, true, ww2⟩
    else .ret ⟨writeRes, true, false, ww2⟩

/-- Lines 294–296: consume the stream-shard id list two entries at a time into
the stream-id → destination-shard mapping (association sequence in insertion
order). -/
def buildStreamShardMap : List Nat → List (Nat × Nat)
  | a :: b :: rest => (a, b) :: buildStreamShardMap rest
  | _ => []

/-- Result of `WriteStreamPoints`: the returned error, the returned `inUse`
flag, whether `storage.WriteRows` was invoked, whether `stream.WriteRows` was
invoked (with which mapping), and the final work object. -/
structure WSPRet where
  err : Option GoErr
  inUse : Bool
  writeRowsCalled : Bool
  streamCalled : Bool
  streamMap : List (Nat × Nat)
  final : WritePointsWork
deriving DecidableEq

/-- Model of `WritePointsWork.WriteStreamPoints`.  Here `writeRes` is the error
`storage.WriteRows` would return; the stream engine call is asynchronous and
returns nothing. -/
def WritePointsWork.WriteStreamPoints (ww : WritePointsWork)
    (unmarshal : List Nat → GoSlice Row × Option String)
    (writeRes : Option GoErr) : Ret WSPRet :=
  match ww.decodePoints unmarshal with
  | .oob => .oob
  | .err m ww2 _ =>
    .ret ⟨some (.errnoNew ErrUnmarshalPoints (.str m)), false, false, false, [], ww2⟩
  | .ok fh ww2 _ =>
    if ww2.stream = false ∨ fh.streamShardIdList.length = 0 then
      .ret ⟨writeRes, false, true, false, [], ww2⟩
    else if fh.streamShardIdList.length % 2 ≠ 0 then
      .ret ⟨some (errnoWrap ErrUnmarshalPoints writeRes), false, true, false, [], ww2⟩
    else if writeRes.isNone && decide (fh.streamShardIdList.length > 0) then
      .ret ⟨none, true, true, true, buildStreamShardMap fh.streamShardIdList, ww2⟩
    else
      .ret ⟨writeRes, false, true, false, buildStreamShardMap fh.streamShardIdList, ww2⟩

/-! ## Pool lifecycle (lines 92–153) -/

/-- Model of `WritePointsWork.reset` (lines 137–153).  `now` is
`fasttime.UnixTimestamp()`.  When either `reqBuf` or `rows` has
`len*4 > cap` and strictly more than 10 seconds have passed since the last
such drop, **both** are set to nil and the timestamp is updated; afterwards
every pool is truncated to length zero and the borrowed engine references are
cleared. -/
def WritePointsWork.reset (ww : WritePointsWork) (now : Nat) : WritePointsWork :=
  let ww1 :=
    if (ww.reqBuf.data.length * 4 > ww.reqBuf.cap ∨ ww.rows.data.length * 4 > ww.rows.cap)
        ∧ usub64 now ww.lastResetTime > 10 then
      { ww with reqBuf := .nilS, rows := .nilS, lastResetTime := now }
    else ww
  { ww1 with
    tagpools := ww1.tagpools.trunc
    fieldpools := ww1.fieldpools.trunc
    indexKeypools := ww1.indexKeypools.trunc
    indexOptionpools := ww1.indexOptionpools.trunc
    storage := false
    stream := false
    rows := ww1.rows.trunc
    reqBuf := ww1.reqBuf.trunc
    streamVars := ww1.streamVars.trunc }

/-- Model of `PutWritePointsWork`: hand `reqBuf` to the external raw-buffer pool
(`bufferpool.PutPoints`, no observable effect on the work object), reset the
work object, and place it in the pool. -/
def PutWritePointsWork (ww : WritePointsWork) (now : Nat) : Option WritePointsWork :=
  some (ww.reset now)

/-- Model of `GetWritePointsWork`: take the pooled object if one is present, otherwise
construct a fresh zero-valued one. -/
def GetWritePointsWork (pool : Option WritePointsWork) : WritePointsWork :=
  match pool with
  | none => freshWritePointsWork
  | some ww => ww

/-! ## Round-trip lemmas for the frame layout -/

/-- Decoding a canonical varint (of a value below `2 ^ (7 * (fuel + 1))`)
followed by arbitrary bytes yields the value and the remaining bytes. -/
theorem uvarintStep_marshal (fuel : Nat) :
    ∀ v : Nat, v < 2 ^ (7 * (fuel + 1)) → ∀ rest : List Nat,
      uvarintStep fuel (marshalVarAux fuel v ++ rest) = .ok (v, rest) := by
  induction fuel with
  | zero =>
    intro v hv rest
    have hv128 : v < 128 := by
      have : 2 ^ (7 * (0 + 1)) = 128 := by norm_num
      omega
    unfold marshalVarAux
    simp [uvarintStep, if_pos hv128]
  | succ fuel ih =>
    intro v hv rest
    unfold marshalVarAux
    by_cases h : v < 128
    · rw [if_pos h]
      simp [uvarintStep, if_pos h]
    · rw [if_neg h]
      have hpow : 2 ^ (7 * (fuel + 1 + 1)) = 128 * 2 ^ (7 * (fuel + 1)) := by
        rw [show 7 * (fuel + 1 + 1) = 7 + 7 * (fuel + 1) by ring, pow_add]
        norm_num
      have hdiv : v / 128 < 2 ^ (7 * (fuel + 1)) := by
        rw [hpow] at hv
        omega
      have hrec : uvarintStep fuel (marshalVarAux fuel (v / 128) ++ rest)
          = .ok (v / 128, rest) := ih (v / 128) hdiv rest
      show uvarintStep (fuel + 1) ((v % 128 + 128) :: (marshalVarAux fuel (v / 128) ++ rest)) = _
      unfold uvarintStep
      rw [if_neg (by omega), hrec]
      have heq : v / 128 * 128 + (v % 128 + 128 - 128) = v := by
        have := Nat.div_add_mod v 128
        omega
      show Except.ok (v / 128 * 128 + (v % 128 + 128 - 128), rest) = Except.ok (v, rest)
      rw [heq]

/-- Decoding a canonical varint of a 64-bit value. -/
theorem unmarshalVarUint64_marshal (v : Nat) (hv : v < 18446744073709551616)
    (rest : List Nat) : unmarshalVarUint64 (marshalVarUint64 v ++ rest) = .ok (v, rest) := by
  apply uvarintStep_marshal
  calc v < 18446744073709551616 := hv
    _ < 2 ^ (7 * (9 + 1)) := by norm_num

/-- Decoding `l.length` canonical varints followed by arbitrary bytes yields
`l` and the remaining bytes. -/
theorem unmarshalVarUint64s_marshal (l : List Nat)
    (hl : ∀ v ∈ l, v < 18446744073709551616) (rest : List Nat) :
    unmarshalVarUint64s l.length (marshalVarUint64s l ++ rest) = (l, .ok rest) := by
  induction l with
  | nil => simp [unmarshalVarUint64s, marshalVarUint64s]
  | cons v vs ih =>
    have hv : v < 18446744073709551616 := hl v (by simp)
    have hvs : ∀ w ∈ vs, w < 18446744073709551616 := fun w hw => hl w (by simp [hw])
    show unmarshalVarUint64s (vs.length + 1)
        ((marshalVarUint64 v ++ marshalVarUint64s vs) ++ rest) = (v :: vs, .ok rest)
    rw [List.append_assoc]
    unfold unmarshalVarUint64s
    rw [unmarshalVarUint64_marshal v hv]
    show (match unmarshalVarUint64s vs.length (marshalVarUint64s vs ++ rest) with
          | (ws, Except.error e) => (v :: ws, Except.error e)
          | (ws, Except.ok tl) => (v :: ws, Except.ok tl)) = (v :: vs, Except.ok rest)
    rw [ih hvs]

/-- The tag step accepts a buffer whose first byte is the protocol tag and at
least one further byte. -/
theorem parseTag_encode (b : Nat) (rest : List Nat) :
    parseTag (PackageTypeFast :: b :: rest) = .next (b :: rest) := by
  show (if (PackageTypeFast :: b :: rest).length < 2 then
          ParseStep.fail ("invalid points buffer")
        else if PackageTypeFast ≠ PackageTypeFast then
          ParseStep.fail ("not a fast marshal points package")
        else ParseStep.next (b :: rest)) = ParseStep.next (b :: rest)
  rw [if_neg (by simp), if_neg (by simp)]

/-- The name step consumes a length byte equal to the name's length followed
by the name. -/
theorem readName_encode (n rest : List Nat) (msg : String) :
    readName (n.length :: (n ++ rest)) msg = .next (n, rest) := by
  show (if (n.length :: (n ++ rest)).length < n.length then ParseStep.fail msg
        else if n.length ≤ (n ++ rest).length then
          ParseStep.next ((n ++ rest).take n.length, (n ++ rest).drop n.length)
        else ParseStep.oob) = ParseStep.next (n, rest)
  rw [if_neg (by simp only [List.length_cons, List.length_append]; omega),
      if_pos (by simp only [List.length_append]; omega)]
  rw [List.take_left, List.drop_left]

/-- The fixed 16-byte block round-trips for in-range values. -/
theorem readFixed_encode (p s n : Nat) (hp : p < 4294967296)
    (hs : s < 18446744073709551616) (hn : n < 4294967296) (rest : List Nat) :
    readFixed (marshalUint32 p ++ (marshalUint64 s ++ (marshalUint32 n ++ rest)))
      = .next (p, s, n, rest) := by
  show readFixed
      ((p / 16777216 % 256) :: (p / 65536 % 256) :: (p / 256 % 256) :: (p % 256) ::
       (s / 72057594037927936 % 256) :: (s / 281474976710656 % 256) ::
       (s / 1099511627776 % 256) :: (s / 4294967296 % 256) ::
       (s / 16777216 % 256) :: (s / 65536 % 256) :: (s / 256 % 256) :: (s % 256) ::
       (n / 16777216 % 256) :: (n / 65536 % 256) :: (n / 256 % 256) :: (n % 256) :: rest)
      = ParseStep.next (p, s, n, rest)
  unfold readFixed
  rw [if_neg (by simp only [List.length_cons]; omega)]
  simp only [List.drop_succ_cons, List.drop_zero]
  simp only [unmarshalUint32, unmarshalUint64]
  have hpeq : ((p / 16777216 % 256 * 256 + p / 65536 % 256) * 256 + p / 256 % 256) * 256
      + p % 256 = p := by omega
  have hseq : ((((((s / 72057594037927936 % 256 * 256 + s / 281474976710656 % 256) * 256
      + s / 1099511627776 % 256) * 256 + s / 4294967296 % 256) * 256 + s / 16777216 % 256)
      * 256 + s / 65536 % 256) * 256 + s / 256 % 256) * 256 + s % 256 = s := by omega
  have hneq : ((n / 16777216 % 256 * 256 + n / 65536 % 256) * 256 + n / 256 % 256) * 256
      + n % 256 = n := by omega
  rw [hpeq, hseq, hneq]

/-- Parsing a frame produced by the §4.1 layout recovers exactly the encoded
header fields and payload. -/
theorem parseFrame_encode (db rp : List Nat) (ptId shard : Nat)
    (sdList payload : List Nat) (hpt : ptId < 4294967296)
    (hsh : shard < 18446744073709551616) (hn : sdList.length < 4294967296)
    (hv : ∀ v ∈ sdList, v < 18446744073709551616) :
    parseFrame (encodeFrame db rp ptId shard sdList payload)
      = .next ⟨db, rp, ptId, shard, sdList, payload⟩ := by
  unfold encodeFrame parseFrame
  simp only [parseTag_encode, readName_encode,
    readFixed_encode ptId shard sdList.length hpt hsh hn,
    unmarshalVarUint64s_marshal sdList hv]

/-! ## Concrete fixtures used by witnesses and counterexamples -/

/-- A row-batch decoder returning no rows and no error. -/
def uNoRows : List Nat → GoSlice Row × Option String := fun _ => (.ofList [], none)

/-- A row-batch decoder returning one row and no error. -/
def uOneRow : List Nat → GoSlice Row × Option String :=
  fun _ => (.ofList [⟨false, 0, 0⟩], none)

/-- The number of atomic adds to `WriteUnmarshalNs` a `decodePoints` call
performed. -/
def DecodeOut.statAdds : DecodeOut → Nat
  | .oob => 0
  | .err _ _ n => n
  | .ok _ _ n => n

/-- A work object whose request buffer carries a valid tag and an empty db
name, and ends right before the rp-name length byte. -/
def wwTruncRp : WritePointsWork :=
  { freshWritePointsWork with storage := true, reqBuf := .ofList [PackageTypeFast, 0] }

/-! ## C1 -/

/-- C1: refuted as stated — the code is the slip.  On the buffer
`[PackageTypeFast, 0]` (valid tag, db-name length 0, buffer exhausted before
the rp-name length byte) `decodePoints` evaluates `tail[0]` on an empty slice:
a Go index panic, i.e. a read past the end of the buffer, instead of the
designated truncation error. -/
theorem decodePoints_missing_rp_len_byte_oob :
    wwTruncRp.decodePoints uNoRows = DecodeOut.oob := rfl

/-! ## C6 -/

/-- Work object with `reqBuf` of length 1 and capacity 4 (so the buffer has
grown to 4× the last-used length) and `rows` empty. -/
def wwShrinkSkew : WritePointsWork :=
  { freshWritePointsWork with reqBuf := ⟨false, [5], 3⟩ }

/-- Work object whose `rows` (length 1, capacity 1) satisfies the code's
`len*4 > cap` trigger while `reqBuf` does not. -/
def wwShrinkBoth : WritePointsWork :=
  { freshWritePointsWork with rows := ⟨false, [⟨false, 0, 0⟩], 0⟩ }

/-- C6 counterexample: a `reqBuf` that *has* grown to ≥4× its last-used length
(length 1, capacity 4) with more than 10 seconds elapsed is **not** dropped by
`reset` — the code's trigger is `len*4 > cap`, the opposite direction of the
claimed "grown to ≥4× its last-used length". -/
theorem reset_keeps_reqBuf_despite_claimed_growth :
    (wwShrinkSkew.reset 11).reqBuf = ⟨false, [], 4⟩
    ∧ 4 * wwShrinkSkew.reqBuf.data.length ≤ wwShrinkSkew.reqBuf.cap
    ∧ 10 ≤ usub64 11 wwShrinkSkew.lastResetTime := by decide

/-- C6 as amended: `reset` drops `reqBuf` **and** `rows` together exactly when
(`len(reqBuf)*4 > cap(reqBuf)` or `len(rows)*4 > cap(rows)`) and strictly more
than 10 seconds have elapsed since the last drop; otherwise both keep their
capacity with length reset to zero and the timestamp is unchanged. -/
theorem reset_shrink_policy (ww : WritePointsWork) (now : Nat) :
    (((ww.reqBuf.data.length * 4 > ww.reqBuf.cap ∨ ww.rows.data.length * 4 > ww.rows.cap)
        ∧ usub64 now ww.lastResetTime > 10) →
      (ww.reset now).reqBuf = GoSlice.nilS ∧ (ww.reset now).rows = GoSlice.nilS
        ∧ (ww.reset now).lastResetTime = now)
    ∧ (¬((ww.reqBuf.data.length * 4 > ww.reqBuf.cap ∨ ww.rows.data.length * 4 > ww.rows.cap)
        ∧ usub64 now ww.lastResetTime > 10) →
      (ww.reset now).reqBuf = ww.reqBuf.trunc ∧ (ww.reset now).rows = ww.rows.trunc
        ∧ (ww.reset now).lastResetTime = ww.lastResetTime) := by
  constructor
  · intro hc
    unfold WritePointsWork.reset
    rw [if_pos hc]
    exact ⟨rfl, rfl, rfl⟩
  · intro hc
    unfold WritePointsWork.reset
    rw [if_neg hc]
    exact ⟨rfl, rfl, rfl⟩

/-- Witness for the amended C6 policy at both a firing and a non-firing
input. -/
theorem reset_shrink_policy_witness :
    ((wwShrinkBoth.reset 11).reqBuf = GoSlice.nilS
      ∧ (wwShrinkBoth.reset 11).rows = GoSlice.nilS
      ∧ (wwShrinkBoth.reset 11).lastResetTime = 11)
    ∧ ((wwShrinkSkew.reset 11).reqBuf = wwShrinkSkew.reqBuf.trunc
      ∧ (wwShrinkSkew.reset 11).rows = wwShrinkSkew.rows.trunc
      ∧ (wwShrinkSkew.reset 11).lastResetTime = wwShrinkSkew.lastResetTime) :=
  ⟨(reset_shrink_policy wwShrinkBoth 11).1 (by decide),
   (reset_shrink_policy wwShrinkSkew 11).2 (by decide)⟩

/-! ## C7 -/

/-- C7 counterexample: releasing a freshly constructed work object and
checking it out again yields pools that are *nil* (`tagpools`, and likewise
`rows`): the "non-nil" part of the claim fails (nothing in `reset` or the
pool ever allocates a pool; `nil[:0]` stays nil, and the shrink branch sets
`rows` to nil outright). -/
theorem recycled_work_object_pools_nil :
    (GetWritePointsWork (PutWritePointsWork freshWritePointsWork 0)).tagpools.isNil = true
    ∧ (GetWritePointsWork (PutWritePointsWork freshWritePointsWork 0)).rows.isNil = true := by
  decide

/-- C7 as amended: after release and re-checkout, every scratch pool and the
stream-var sequence has length zero (so no row/tag/field/index data of the
previous request is observable) and the borrowed engine references are
cleared; the slices may however be nil. -/
theorem recycled_work_object_pools_empty (ww : WritePointsWork) (now : Nat) :
    (GetWritePointsWork (PutWritePointsWork ww now)).rows.data = []
    ∧ (GetWritePointsWork (PutWritePointsWork ww now)).tagpools.data = []
    ∧ (GetWritePointsWork (PutWritePointsWork ww now)).fieldpools.data = []
    ∧ (GetWritePointsWork (PutWritePointsWork ww now)).indexKeypools.data = []
    ∧ (GetWritePointsWork (PutWritePointsWork ww now)).indexOptionpools.data = []
    ∧ (GetWritePointsWork (PutWritePointsWork ww now)).streamVars.data = []
    ∧ (GetWritePointsWork (PutWritePointsWork ww now)).reqBuf.data = []
    ∧ (GetWritePointsWork (PutWritePointsWork ww now)).storage = false
    ∧ (GetWritePointsWork (PutWritePointsWork ww now)).stream = false :=
  ⟨rfl, rfl, rfl, rfl, rfl, rfl, rfl, rfl, rfl⟩

/-! ## C10 -/

/-- Every `decodePoints` call either returns without error having performed
exactly one atomic add, returns an error having performed none, or panics. -/
theorem decodePoints_outcome (u : List Nat → GoSlice Row × Option String)
    (ww : WritePointsWork) :
    (∃ fh w2, ww.decodePoints u = DecodeOut.ok fh w2 1)
    ∨ (∃ m w2, ww.decodePoints u = DecodeOut.err m w2 0)
    ∨ ww.decodePoints u = DecodeOut.oob := by
  unfold WritePointsWork.decodePoints
  dsimp only
  repeat' split
  all_goals
    first
      | exact Or.inl ⟨_, _, rfl⟩
      | exact Or.inr (Or.inl ⟨_, _, rfl⟩)
      | exact Or.inr (Or.inr rfl)

/-- C10: `decodePoints` performs the atomic add to `WriteUnmarshalNs` exactly
once on a call that returns without error, and never on a call that returns
an error (every error path exits before the add). -/
theorem decodePoints_statAdds (u : List Nat → GoSlice Row × Option String)
    (ww : WritePointsWork) :
    (∀ fh w2 n, ww.decodePoints u = DecodeOut.ok fh w2 n → n = 1)
    ∧ (∀ m w2 n, ww.decodePoints u = DecodeOut.err m w2 n → n = 0) := by
  have hc := decodePoints_outcome u ww
  constructor
  · intro fh w2 n heq
    rcases hc with ⟨fh2, w3, h⟩ | ⟨m2, w3, h⟩ | h <;> rw [heq] at h <;> simp_all
  · intro m w2 n heq
    rcases hc with ⟨fh2, w3, h⟩ | ⟨m2, w3, h⟩ | h <;> rw [heq] at h <;> simp_all

/-- A work object holding a well-formed frame (db "", rp "", partition 7,
shard 42, no stream-shard entries, empty payload). -/
def wwOkFrame : WritePointsWork :=
  { freshWritePointsWork with
    storage := true
    reqBuf := .ofList (encodeFrame [] [] 7 42 [] []) }

/-- The work object as `decodePoints` leaves `wwOkFrame` under `uNoRows`. -/
def wwOkFrameAfter : WritePointsWork :=
  { wwOkFrame with
    rows := .ofList []
    tagpools := GoSlice.nilS.trunc
    fieldpools := GoSlice.nilS.trunc
    indexKeypools := GoSlice.nilS.trunc
    indexOptionpools := (truncIndexLists GoSlice.nilS).trunc }

/-- Witness for C10 at a successful decode and at a failing decode. -/
theorem decodePoints_statAdds_witness :
    (1 : Nat) = 1 ∧ (0 : Nat) = 0 :=
  ⟨(decodePoints_statAdds uNoRows wwOkFrame).1
      ⟨[], [], 7, 42, [], []⟩ wwOkFrameAfter 1 (by decide),
   (decodePoints_statAdds uNoRows freshWritePointsWork).2 ("invalid points buffer")
      freshWritePointsWork 0 (by decide)⟩

/-- A successful `decodePoints` never touches the engine references or the
caller-supplied stream vars of the work object. -/
theorem decodePoints_ok_preserves (u : List Nat → GoSlice Row × Option String)
    (ww : WritePointsWork) (fh : FrameHeader) (w2 : WritePointsWork) (n : Nat)
    (h : ww.decodePoints u = DecodeOut.ok fh w2 n) :
    w2.stream = ww.stream ∧ w2.storage = ww.storage ∧ w2.streamVars = ww.streamVars := by
  unfold WritePointsWork.decodePoints at h
  dsimp only at h
  repeat' split at h
  all_goals (cases h <;> exact ⟨rfl, rfl, rfl⟩)

/-! ## C8 -/

/-- A buffer with at least 2 bytes whose first byte is not the protocol tag is
rejected at the tag step. -/
theorem parseTag_wrong (b : Nat) (hb : b ≠ PackageTypeFast) (b1 : Nat) (t1 : List Nat) :
    parseTag (b :: b1 :: t1) = .fail ("not a fast marshal points package") := by
  show (if (b :: b1 :: t1).length < 2 then ParseStep.fail ("invalid points buffer")
        else if b ≠ PackageTypeFast then ParseStep.fail ("not a fast marshal points package")
        else ParseStep.next (b1 :: t1)) = ParseStep.fail ("not a fast marshal points package")
  rw [if_neg (by simp only [List.length_cons]; omega), if_pos hb]

/-- C8: any buffer whose first byte is not the protocol tag makes
`decodePoints` return an error (leaving the work object untouched and
performing no statistics add); for buffers of length at least 2 the error is
specifically "not a fast marshal points package". -/
theorem decodePoints_rejects_wrong_tag (u : List Nat → GoSlice Row × Option String)
    (ww : WritePointsWork) (b : Nat)
    (hhead : ww.reqBuf.data.head? = some b) (hb : b ≠ PackageTypeFast) :
    ∃ m, ww.decodePoints u = DecodeOut.err m ww 0
      ∧ (2 ≤ ww.reqBuf.data.length → m = "not a fast marshal points package") := by
  rcases hd : ww.reqBuf.data with _ | ⟨b0, t⟩
  · rw [hd] at hhead
    simp at hhead
  · rw [hd] at hhead
    have hb0 : b0 = b := by simpa using hhead
    subst hb0
    cases t with
    | nil =>
      refine ⟨"invalid points buffer", ?_, ?_⟩
      · unfold WritePointsWork.decodePoints parseFrame parseTag
        rw [hd]
        rfl
      · intro hlen
        simp at hlen
    | cons b1 t1 =>
      refine ⟨"not a fast marshal points package", ?_, fun _ => rfl⟩
      unfold WritePointsWork.decodePoints parseFrame
      rw [hd, parseTag_wrong b0 hb b1 t1]

/-- A work object whose buffer starts with a byte that is not the protocol
tag. -/
def wwWrongTag : WritePointsWork :=
  { freshWritePointsWork with reqBuf := .ofList [3, 9, 9] }

/-- Witness for C8 at the concrete buffer `[3, 9, 9]`. -/
theorem decodePoints_rejects_wrong_tag_witness :
    ∃ m, wwWrongTag.decodePoints uNoRows = DecodeOut.err m wwWrongTag 0
      ∧ (2 ≤ wwWrongTag.reqBuf.data.length → m = "not a fast marshal points package") :=
  decodePoints_rejects_wrong_tag uNoRows wwWrongTag 3 rfl (by decide)

/-! ## C3 -/

/-- C3: when the decode succeeds, the primary write succeeds and replication
is enabled, `WritePoints` returns exactly the replica-write result (so a
failing replica write is reported even though the primary write succeeded);
and the replica path is never invoked when replication is disabled or the
primary write failed. -/
theorem writePoints_replication (u : List Nat → GoSlice Row × Option String)
    (ww : WritePointsWork) (writeRes slaveRes : Option GoErr) (isRepl : Bool) (r : WPRet)
    (h : ww.WritePoints u writeRes slaveRes isRepl = Ret.ret r) :
    ((∃ fh w2 n, ww.decodePoints u = DecodeOut.ok fh w2 n) → writeRes = none → isRepl = true →
        r.err = slaveRes ∧ r.slaveCalled = true)
    ∧ (isRepl = false → r.slaveCalled = false)
    ∧ (writeRes ≠ none → r.slaveCalled = false) := by
  unfold WritePointsWork.WritePoints at h
  cases hd : ww.decodePoints u with
  | oob =>
    rw [hd] at h
    cases h
  | err m w2 k =>
    rw [hd] at h
    dsimp only at h
    cases h
    refine ⟨?_, fun _ => rfl, fun _ => rfl⟩
    rintro ⟨fh, w3, n2, hok⟩ _ _
    simp at hok
  | ok fh2 w2 k =>
    rw [hd] at h
    dsimp only at h
    by_cases hc : (writeRes.isNone && isRepl) = true
    · rw [if_pos hc] at h
      cases h
      refine ⟨fun _ _ _ => ⟨rfl, rfl⟩, ?_, ?_⟩
      · intro hrF
        rw [hrF] at hc
        simp at hc
      · intro hwR
        simp only [Bool.and_eq_true] at hc
        cases writeRes with
        | none => exact absurd rfl hwR
        | some e => simp at hc
    · rw [if_neg hc] at h
      cases h
      refine ⟨?_, fun _ => rfl, fun _ => rfl⟩
      intro _ hwR hrepl
      exact absurd (by rw [hwR, hrepl]; rfl) hc

/-- Witness for C3: replication on, primary write succeeds, replica write
fails with a concrete error — `WritePoints` returns that error. -/
theorem writePoints_replication_witness :
    (⟨some (GoErr.str ("replica write failed")), true, true, wwOkFrameAfter⟩ : WPRet).err
        = some (GoErr.str ("replica write failed"))
    ∧ (⟨some (GoErr.str ("replica write failed")), true, true,
        wwOkFrameAfter⟩ : WPRet).slaveCalled = true :=
  (writePoints_replication uNoRows wwOkFrame none (some (.str ("replica write failed"))) true
      ⟨some (.str ("replica write failed")), true, true, wwOkFrameAfter⟩ (by decide)).1
    ⟨⟨[], [], 7, 42, [], []⟩, wwOkFrameAfter, 1, by decide⟩ rfl rfl

/-! ## C2 -/

/-- A work object whose frame has **no** stream-shard entries while the caller
supplied two stream vars. -/
def wwMismatchNoSd : WritePointsWork :=
  { freshWritePointsWork with
    storage := true
    reqBuf := .ofList (encodeFrame [] [] 7 42 [] [])
    streamVars := .ofList [⟨false, 1⟩, ⟨false, 2⟩] }

/-- The work object as `decodePoints` leaves `wwMismatchNoSd` under
`uOneRow`. -/
def wwMismatchNoSdAfter : WritePointsWork :=
  { wwMismatchNoSd with
    rows := .ofList [⟨false, 0, 0⟩]
    tagpools := GoSlice.nilS.trunc
    fieldpools := GoSlice.nilS.trunc
    indexKeypools := GoSlice.nilS.trunc
    indexOptionpools := (truncIndexLists GoSlice.nilS).trunc }

/-- C2 counterexample: with an **empty** stream-shard id list, the
rows-versus-streamVars length check is skipped entirely — one decoded row
against two supplied stream vars decodes without error, and `WritePoints`
invokes the storage write instead of failing. -/
theorem writePoints_ignores_mismatch_without_sdList :
    wwMismatchNoSd.streamVars.data.length = 2
    ∧ wwMismatchNoSd.decodePoints uOneRow
        = DecodeOut.ok ⟨[], [], 7, 42, [], []⟩ wwMismatchNoSdAfter 1
    ∧ wwMismatchNoSdAfter.rows.data.length = 1
    ∧ wwMismatchNoSd.WritePoints uOneRow none none false
        = Ret.ret ⟨none, true, false, wwMismatchNoSdAfter⟩ := by
  refine ⟨rfl, by decide, rfl, by decide⟩

/-- C2 as amended: when the frame's stream-shard id list is **non-empty** and
the decoded row count differs from `len(streamVars)`, both dispatch entry
points fail with the routing-mismatch error wrapped in the unmarshal-points
kind, and the storage write is never invoked. -/
theorem dispatch_fails_on_streamVars_mismatch
    (u : List Nat → GoSlice Row × Option String) (ww : WritePointsWork)
    (fh : FrameHeader) (rowsOut : GoSlice Row)
    (hp : parseFrame ww.reqBuf.data = ParseStep.next fh)
    (hsd : fh.streamShardIdList ≠ [])
    (hu : u fh.binaryRows = (rowsOut, none))
    (hlen : rowsOut.data.length ≠ ww.streamVars.data.length)
    (writeRes slaveRes : Option GoErr) (isRepl : Bool) :
    ∃ w2, ww.decodePoints u = DecodeOut.err rowsStreamVarsMismatchMsg w2 0
      ∧ ww.WritePoints u writeRes slaveRes isRepl
          = Ret.ret ⟨some (.errnoNew ErrUnmarshalPoints (.str rowsStreamVarsMismatchMsg)),
                     false, false, w2⟩
      ∧ ww.WriteStreamPoints u writeRes
          = Ret.ret ⟨some (.errnoNew ErrUnmarshalPoints (.str rowsStreamVarsMismatchMsg)),
                     false, false, false, [], w2⟩ := by
  have hdec : ww.decodePoints u = DecodeOut.err rowsStreamVarsMismatchMsg
      { ww with
        rows := rowsOut
        tagpools := ww.tagpools.trunc
        fieldpools := ww.fieldpools.trunc
        indexKeypools := ww.indexKeypools.trunc
        indexOptionpools := (truncIndexLists ww.indexOptionpools).trunc } 0 := by
    unfold WritePointsWork.decodePoints
    rw [hp]
    dsimp only
    rw [hu]
    dsimp only
    rw [if_pos (List.length_pos.mpr hsd), if_pos hlen]
  refine ⟨_, hdec, ?_, ?_⟩
  · unfold WritePointsWork.WritePoints
    rw [hdec]
  · unfold WritePointsWork.WriteStreamPoints
    rw [hdec]

/-- A work object whose frame has one stream-shard entry while the supplied
stream vars (two) cannot match the decoded row count (one). -/
def wwMismatchSd : WritePointsWork :=
  { freshWritePointsWork with
    storage := true
    reqBuf := .ofList (encodeFrame [] [] 0 0 [5] [])
    streamVars := .ofList [⟨false, 1⟩, ⟨false, 2⟩] }

/-- Witness for the amended C2 at a concrete mismatching request. -/
theorem dispatch_fails_on_streamVars_mismatch_witness :
    ∃ w2, wwMismatchSd.decodePoints uOneRow = DecodeOut.err rowsStreamVarsMismatchMsg w2 0
      ∧ wwMismatchSd.WritePoints uOneRow none none false
          = Ret.ret ⟨some (.errnoNew ErrUnmarshalPoints (.str rowsStreamVarsMismatchMsg)),
                     false, false, w2⟩
      ∧ wwMismatchSd.WriteStreamPoints uOneRow none
          = Ret.ret ⟨some (.errnoNew ErrUnmarshalPoints (.str rowsStreamVarsMismatchMsg)),
                     false, false, false, [], w2⟩ :=
  dispatch_fails_on_streamVars_mismatch uOneRow wwMismatchSd ⟨[], [], 0, 0, [5], []⟩
    (.ofList [⟨false, 0, 0⟩]) (by decide) (by decide) rfl (by decide) none none false

/-! ## C4 -/

/-- A work object with an odd (length-1) stream-shard id list and **no**
stream engine attached. -/
def wwOddNoStream : WritePointsWork :=
  { freshWritePointsWork with
    storage := true
    reqBuf := .ofList (encodeFrame [] [] 0 0 [5] []) }

/-- The work object as `decodePoints` leaves `wwOddNoStream` under
`uNoRows`. -/
def wwOddNoStreamAfter : WritePointsWork :=
  { wwOddNoStream with
    rows := .ofList []
    tagpools := GoSlice.nilS.trunc
    fieldpools := GoSlice.nilS.trunc
    indexKeypools := GoSlice.nilS.trunc
    indexOptionpools := (truncIndexLists GoSlice.nilS).trunc }

/-- C4 counterexample: with an odd-length stream-shard id list but no stream
engine attached, `WriteStreamPoints` returns **nil** error (the odd-length
check sits after the `stream == nil` early return), so the claim's
unconditional failure does not hold. -/
theorem writeStreamPoints_odd_list_without_engine_returns_nil :
    (∃ fh w2 n, wwOddNoStream.decodePoints uNoRows = DecodeOut.ok fh w2 n
        ∧ fh.streamShardIdList.length % 2 = 1)
    ∧ wwOddNoStream.WriteStreamPoints uNoRows none
        = Ret.ret ⟨none, false, true, false, [], wwOddNoStreamAfter⟩ :=
  ⟨⟨⟨[], [], 0, 0, [5], []⟩, wwOddNoStreamAfter, 1, by decide, by decide⟩, by decide⟩

/-- C4 as amended: when a stream engine **is** attached and the decode
succeeded, an odd-length stream-shard id list makes `WriteStreamPoints`
return the unmarshal-points-kind error, never invoke the stream engine, and
report `inUse = false` (the primary storage write has already been
invoked at that point). -/
theorem writeStreamPoints_odd_list_with_engine_fails
    (u : List Nat → GoSlice Row × Option String) (ww : WritePointsWork)
    (writeRes : Option GoErr) (fh : FrameHeader) (w2 : WritePointsWork) (n : Nat)
    (hstream : ww.stream = true)
    (hdec : ww.decodePoints u = DecodeOut.ok fh w2 n)
    (hodd : fh.streamShardIdList.length % 2 = 1) :
    ww.WriteStreamPoints u writeRes
      = Ret.ret ⟨some (errnoWrap ErrUnmarshalPoints writeRes), false, true, false, [], w2⟩ := by
  have hpres := decodePoints_ok_preserves u ww fh w2 n hdec
  unfold WritePointsWork.WriteStreamPoints
  rw [hdec]
  dsimp only
  rw [if_neg ?hc1, if_pos ?hc2]
  case hc1 =>
    rintro (h1 | h2)
    · rw [hpres.1, hstream] at h1
      cases h1
    · omega
  case hc2 => omega

/-- A work object with an odd stream-shard id list and a stream engine
attached. -/
def wwOddStream : WritePointsWork :=
  { wwOddNoStream with stream := true }

/-- The work object as `decodePoints` leaves `wwOddStream` under `uNoRows`. -/
def wwOddStreamAfter : WritePointsWork :=
  { wwOddNoStreamAfter with stream := true }

/-- Witness for the amended C4 at a concrete odd-length request. -/
theorem writeStreamPoints_odd_list_with_engine_fails_witness :
    wwOddStream.WriteStreamPoints uNoRows none
      = Ret.ret ⟨some (errnoWrap ErrUnmarshalPoints none), false, true, false,
                 [], wwOddStreamAfter⟩ :=
  writeStreamPoints_odd_list_with_engine_fails uNoRows wwOddStream none
    ⟨[], [], 0, 0, [5], []⟩ wwOddStreamAfter 1 rfl (by decide) (by decide)

/-! ## C9 -/

/-- C9: `WriteStreamPoints` invokes the stream engine's `WriteRows` (and
reports `inUse = true`) exactly when the decode succeeded, a stream engine is
attached, the stream-shard id list is non-empty of even length, and the
primary storage write returned no error; in particular a primary-write
failure suppresses stream dispatch. -/
theorem writeStreamPoints_dispatch_iff (u : List Nat → GoSlice Row × Option String)
    (ww : WritePointsWork) (writeRes : Option GoErr) (r : WSPRet)
    (h : ww.WriteStreamPoints u writeRes = Ret.ret r) :
    (r.streamCalled = true ↔
      (∃ fh w2 n, ww.decodePoints u = DecodeOut.ok fh w2 n
        ∧ ww.stream = true ∧ fh.streamShardIdList ≠ []
        ∧ fh.streamShardIdList.length % 2 = 0 ∧ writeRes = none))
    ∧ r.inUse = r.streamCalled := by
  unfold WritePointsWork.WriteStreamPoints at h
  cases hd : ww.decodePoints u with
  | oob =>
    rw [hd] at h
    cases h
  | err m w2 k =>
    rw [hd] at h
    dsimp only at h
    cases h
    refine ⟨⟨fun hf => absurd hf (by simp), ?_⟩, rfl⟩
    rintro ⟨fh, w3, n2, hok, _⟩
    simp at hok
  | ok fh2 w2 k =>
    have hpres := decodePoints_ok_preserves u ww fh2 w2 k hd
    rw [hd] at h
    dsimp only at h
    by_cases h1 : (w2.stream = false ∨ fh2.streamShardIdList.length = 0)
    · rw [if_pos h1] at h
      cases h
      refine ⟨⟨fun hf => absurd hf (by simp), ?_⟩, rfl⟩
      rintro ⟨fh, w3, n2, hok, hstream, hne, heven, hwr⟩
      injection hok with e1 e2 e3
      subst e1
      rcases h1 with hs | hl
      · rw [hpres.1, hstream] at hs
        cases hs
      · exact (hne (List.length_eq_zero.mp hl)).elim
    · rw [if_neg h1] at h
      by_cases h2 : fh2.streamShardIdList.length % 2 ≠ 0
      · rw [if_pos h2] at h
        cases h
        refine ⟨⟨fun hf => absurd hf (by simp), ?_⟩, rfl⟩
        rintro ⟨fh, w3, n2, hok, hstream, hne, heven, hwr⟩
        injection hok with e1 e2 e3
        subst e1
        exact (h2 heven).elim
      · rw [if_neg h2] at h
        by_cases h3 : (writeRes.isNone && decide (fh2.streamShardIdList.length > 0)) = true
        · rw [if_pos h3] at h
          cases h
          refine ⟨⟨fun _ => ?_, fun _ => rfl⟩, rfl⟩
          push_neg at h1
          simp only [Bool.and_eq_true, decide_eq_true_eq] at h3
          refine ⟨fh2, w2, k, rfl, ?_, ?_, not_not.mp h2, ?_⟩
          · rw [← hpres.1]
            cases hstr : w2.stream with
            | false => exact absurd hstr h1.1
            | true => rfl
          · intro hnil
            exact h1.2 (by rw [hnil]; rfl)
          · exact Option.isNone_iff_eq_none.mp h3.1
        · rw [if_neg h3] at h
          cases h
          refine ⟨⟨fun hf => absurd hf (by simp), ?_⟩, rfl⟩
          rintro ⟨fh, w3, n2, hok, hstream, hne, heven, hwr⟩
          injection hok with e1 e2 e3
          subst e1
          refine (h3 ?_).elim
          rw [hwr]
          simp only [Option.isNone_none, Bool.true_and, decide_eq_true_eq]
          exact List.length_pos.mpr hne

/-- A work object with a stream engine attached and two stream-shard entries
(stream 5 → shard 6). -/
def wwEvenStream : WritePointsWork :=
  { freshWritePointsWork with
    storage := true
    stream := true
    reqBuf := .ofList (encodeFrame [] [] 0 0 [5, 6] []) }

/-- The work object as `decodePoints` leaves `wwEvenStream` under `uNoRows`. -/
def wwEvenStreamAfter : WritePointsWork :=
  { wwEvenStream with
    rows := .ofList []
    tagpools := GoSlice.nilS.trunc
    fieldpools := GoSlice.nilS.trunc
    indexKeypools := GoSlice.nilS.trunc
    indexOptionpools := (truncIndexLists GoSlice.nilS).trunc }

/-- Witness for C9: a fully successful stream dispatch at a concrete
request. -/
theorem writeStreamPoints_dispatch_iff_witness :
    ∃ fh w2 n, wwEvenStream.decodePoints uNoRows = DecodeOut.ok fh w2 n
      ∧ wwEvenStream.stream = true ∧ fh.streamShardIdList ≠ []
      ∧ fh.streamShardIdList.length % 2 = 0 ∧ (none : Option GoErr) = none :=
  ((writeStreamPoints_dispatch_iff uNoRows wwEvenStream none
      ⟨none, true, true, true, [(5, 6)], wwEvenStreamAfter⟩ (by decide)).1).mp rfl

/-! ## C5 -/

/-- C5: every frame well-formed per the §4.1 layout (the image of
`encodeFrame` under the layout's range constraints) parses back to exactly
the encoded header fields; re-encoding the returned fields reproduces the
original buffer byte-for-byte, and the returned row payload is exactly the
original tail.  Moreover, whenever the black-box row decoder accepts the
payload (and the stream-var length constraint is met), `decodePoints` itself
succeeds returning those fields. -/
theorem frame_roundtrip (db rp : List Nat) (ptId shard : Nat) (sdList payload : List Nat)
    (u : List Nat → GoSlice Row × Option String) (ww : WritePointsWork)
    (hbuf : ww.reqBuf.data = encodeFrame db rp ptId shard sdList payload)
    (_hdb : db.length ≤ 255) (_hrp : rp.length ≤ 255)
    (hpt : ptId < 4294967296) (hsh : shard < 18446744073709551616)
    (hn : sdList.length < 4294967296)
    (hv : ∀ v ∈ sdList, v < 18446744073709551616) :
    ∃ fh, parseFrame ww.reqBuf.data = ParseStep.next fh
      ∧ fh.db = db ∧ fh.rp = rp ∧ fh.ptId = ptId ∧ fh.shard = shard
      ∧ fh.streamShardIdList = sdList ∧ fh.binaryRows = payload
      ∧ encodeFrame fh.db fh.rp fh.ptId fh.shard fh.streamShardIdList fh.binaryRows
          = ww.reqBuf.data
      ∧ (∀ rowsOut, u fh.binaryRows = (rowsOut, none) →
          (sdList = [] ∨ rowsOut.data.length = ww.streamVars.data.length) →
          ∃ w2, ww.decodePoints u = DecodeOut.ok fh w2 1) := by
  have hp : parseFrame ww.reqBuf.data = ParseStep.next ⟨db, rp, ptId, shard, sdList, payload⟩ := by
    rw [hbuf]
    exact parseFrame_encode db rp ptId shard sdList payload hpt hsh hn hv
  refine ⟨⟨db, rp, ptId, shard, sdList, payload⟩, hp, rfl, rfl, rfl, rfl, rfl, rfl,
    hbuf.symm, ?_⟩
  intro rowsOut hu hor
  unfold WritePointsWork.decodePoints
  rw [hp]
  dsimp only
  rw [hu]
  dsimp only
  rcases hor with hnil | hlen
  · subst hnil
    rw [if_neg (by simp)]
    exact ⟨_, rfl⟩
  · by_cases hlen0 : sdList.length > 0
    · rw [if_pos hlen0, if_neg (fun hne => hne hlen)]
      exact ⟨_, rfl⟩
    · rw [if_neg hlen0]
      exact ⟨_, rfl⟩

/-- A work object holding a fully populated frame: db "db", rp "rp",
partition 7, shard 42, stream-shard entries `[3, 300]` (300 takes a two-byte
varint), payload `[9, 9]`. -/
def wwRoundtrip : WritePointsWork :=
  { freshWritePointsWork with
    storage := true
    reqBuf := .ofList (encodeFrame [100, 98] [114, 112] 7 42 [3, 300] [9, 9]) }

/-- Witness for C5 at a concrete fully populated frame. -/
theorem frame_roundtrip_witness :
    ∃ fh, parseFrame wwRoundtrip.reqBuf.data = ParseStep.next fh
      ∧ fh.db = [100, 98] ∧ fh.rp = [114, 112] ∧ fh.ptId = 7 ∧ fh.shard = 42
      ∧ fh.streamShardIdList = [3, 300] ∧ fh.binaryRows = [9, 9]
      ∧ encodeFrame fh.db fh.rp fh.ptId fh.shard fh.streamShardIdList fh.binaryRows
          = wwRoundtrip.reqBuf.data
      ∧ (∀ rowsOut, uNoRows fh.binaryRows = (rowsOut, none) →
          ([3, 300] = ([] : List Nat)
            ∨ rowsOut.data.length = wwRoundtrip.streamVars.data.length) →
          ∃ w2, wwRoundtrip.decodePoints uNoRows = DecodeOut.ok fh w2 1) :=
  frame_roundtrip [100, 98] [114, 112] 7 42 [3, 300] [9, 9] uNoRows wwRoundtrip rfl
    (by decide) (by decide) (by decide) (by decide) (by decide) (by decide)

end TsStoreTransport
